import Mathlib

/-!
Verification of the mailsense email-triage pipeline.

This file gives a shallow embedding of the repository's core operations:

* `src/modules/clients/gmail_client.py` — `GmailClient.fetch_emails`,
  `get_message_content`, `_find_part_by_mimetype`, `_decode_body`,
  `list_labels`, `apply_label`;
* `src/modules/label.py` — `GmailLabels._update_label`;
* `src/modules/email.py` — `EmailProcessor.get_message_content`,
  `get_unread_emails`;
* `src/modules/llm.py` — `LLMProcessor.summarize_emails`, `classify_emails`;
* `src/app/classifier.py` — `EmailClassifier._validate_date_arguments`,
  `run`.

Python strings are modelled as Lean `String` (a list of characters);
Python's `str.lower`, `str.upper` and `str.strip` are embedded explicitly
(`pyLower`, `pyUpper`, `pyTrim`) as ASCII character maps, matching CPython
semantics on the ASCII range.  External collaborators — base64url decoding,
HTML-to-text conversion, the language-model invocation, and calendar
arithmetic of `datetime` — are abstracted as function parameters.  Mailbox
interactions are made explicit: each operation returns, besides its result,
the list of wire calls (`MailCall`) it performed against the mailbox.
-/

namespace Mailsense

/-! ## Embedding of Python string primitives -/

/-- ASCII lower-casing of one character, as CPython's `str.lower` acts on
the ASCII range: `A`–`Z` map to `a`–`z`, all else unchanged. -/
def charLower (c : Char) : Char :=
  if 65 ≤ c.toNat && c.toNat ≤ 90 then Char.ofNat (c.toNat + 32) else c

/-- ASCII upper-casing of one character, as CPython's `str.upper` acts on
the ASCII range: `a`–`z` map to `A`–`Z`, all else unchanged. -/
def charUpper (c : Char) : Char :=
  if 97 ≤ c.toNat && c.toNat ≤ 122 then Char.ofNat (c.toNat - 32) else c

/-- The default whitespace set stripped by Python's `str.strip`. -/
def isWs (c : Char) : Bool :=
  c.toNat = 32 || c.toNat = 9 || c.toNat = 10 || c.toNat = 13 ||
  c.toNat = 11 || c.toNat = 12

/-- Python `s.lower()`. -/
def pyLower (s : String) : String := ⟨s.data.map charLower⟩

/-- Python `s.upper()`. -/
def pyUpper (s : String) : String := ⟨s.data.map charUpper⟩

/-- Strip leading and trailing whitespace from a character list. -/
def pyTrimList (l : List Char) : List Char :=
  ((l.dropWhile isWs).reverse.dropWhile isWs).reverse

/-- Python `s.strip()`. -/
def pyTrim (s : String) : String := ⟨pyTrimList s.data⟩

theorem charOfNat_toNat (n : Nat) (h : n < 55296) : (Char.ofNat n).toNat = n := by
  have hv : Nat.isValidChar n := Or.inl h
  simp [Char.ofNat, hv, Char.ofNatAux, Char.toNat]
  rfl

theorem char_eq_of_toNat_eq (a b : Char) (h : a.toNat = b.toNat) : a = b := by
  apply Char.ext
  apply UInt32.eq_of_val_eq
  exact Fin.eq_of_val_eq h

theorem charUpper_charLower (c : Char) : charUpper (charLower c) = charUpper c := by
  unfold charLower charUpper
  by_cases h : 65 ≤ c.toNat ∧ c.toNat ≤ 90
  · have hlt : c.toNat + 32 < 55296 := by omega
    have ht : (Char.ofNat (c.toNat + 32)).toNat = c.toNat + 32 :=
      charOfNat_toNat _ hlt
    have h1 : (65 ≤ c.toNat && c.toNat ≤ 90) = true := by
      simp [h.1, h.2]
    have h2 : (97 ≤ (Char.ofNat (c.toNat + 32)).toNat &&
        (Char.ofNat (c.toNat + 32)).toNat ≤ 122) = true := by
      rw [ht]; simp; omega
    have h3 : (97 ≤ c.toNat && c.toNat ≤ 122) = false := by
      simp; omega
    rw [h1]
    simp only [if_true]
    rw [h2]
    simp only [if_true, h3]
    simp only [Bool.false_eq_true, if_false]
    apply char_eq_of_toNat_eq
    rw [ht]
    rw [charOfNat_toNat _ (by omega : c.toNat + 32 - 32 < 55296)]
    omega
  · have h1 : (65 ≤ c.toNat && c.toNat ≤ 90) = false := by
      simp; omega
    rw [h1]
    simp

theorem isWs_charLower (c : Char) : isWs (charLower c) = isWs c := by
  unfold charLower isWs
  by_cases h : 65 ≤ c.toNat ∧ c.toNat ≤ 90
  · have hlt : c.toNat + 32 < 55296 := by omega
    have ht : (Char.ofNat (c.toNat + 32)).toNat = c.toNat + 32 :=
      charOfNat_toNat _ hlt
    have h1 : (65 ≤ c.toNat && c.toNat ≤ 90) = true := by simp [h.1, h.2]
    rw [h1]
    simp only [if_true]
    rw [ht]
    have hA : (decide (c.toNat + 32 = 32) || decide (c.toNat + 32 = 9) ||
        decide (c.toNat + 32 = 10) || decide (c.toNat + 32 = 13) ||
        decide (c.toNat + 32 = 11) || decide (c.toNat + 32 = 12)) = false := by
      simp only [Bool.or_eq_false_iff, decide_eq_false_iff_not]
      omega
    have hB : (decide (c.toNat = 32) || decide (c.toNat = 9) ||
        decide (c.toNat = 10) || decide (c.toNat = 13) ||
        decide (c.toNat = 11) || decide (c.toNat = 12)) = false := by
      simp only [Bool.or_eq_false_iff, decide_eq_false_iff_not]
      omega
    rw [hA, hB]
  · have h1 : (65 ≤ c.toNat && c.toNat ≤ 90) = false := by simp; omega
    rw [h1]
    simp

theorem pyLower_length (s : String) : (pyLower s).data.length = s.data.length := by
  simp [pyLower]

theorem pyLower_eq_empty_iff (s : String) : pyLower s = "" ↔ s = "" := by
  constructor
  · intro h
    have : (pyLower s).data = [] := congrArg String.data h
    simp [pyLower] at this
    exact congrArg String.mk this
  · intro h
    subst h
    rfl

theorem pyTrimList_map_charLower (l : List Char) :
    pyTrimList (l.map charLower) = (pyTrimList l).map charLower := by
  unfold pyTrimList
  have hws : (isWs ∘ charLower) = isWs := by
    funext c
    exact isWs_charLower c
  rw [List.dropWhile_map, hws, ← List.map_reverse, List.dropWhile_map, hws,
    ← List.map_reverse]

theorem map_charUpper_map_charLower (l : List Char) :
    (l.map charLower).map charUpper = l.map charUpper := by
  rw [List.map_map]
  apply List.map_congr_left
  intro c _
  exact charUpper_charLower c

/-- `s.strip().upper()` is determined by `s.lower()`: two names equal up to
ASCII case have the same stripped upper-case form. -/
theorem pyUpper_pyTrim_of_pyLower_eq (s t : String) (h : pyLower s = pyLower t) :
    pyUpper (pyTrim s) = pyUpper (pyTrim t) := by
  have hd : s.data.map charLower = t.data.map charLower :=
    congrArg String.data h
  have key : ∀ l : List Char,
      (pyTrimList l).map charUpper = (pyTrimList (l.map charLower)).map charUpper := by
    intro l
    rw [pyTrimList_map_charLower, map_charUpper_map_charLower]
  have : (pyTrimList s.data).map charUpper = (pyTrimList t.data).map charUpper := by
    rw [key s.data, key t.data, hd]
  simpa [pyUpper, pyTrim] using congrArg String.mk this

theorem ne_empty_of_pyLower_eq (s t : String) (h : pyLower s = pyLower t)
    (hs : s ≠ "") : t ≠ "" := by
  intro ht
  apply hs
  rw [← pyLower_eq_empty_iff] at ht ⊢
  rw [h, ht]

/-! ## Data model: labels, messages, mailbox state, wire calls

`GLabel` embeds a Gmail label dictionary (`{'id': ..., 'name': ..., 'type': ...}`).
The `id` field is `Option String`: `none` embeds Python `None`, the value the
configuration fallback of `list_labels` supplies for placeholder labels.
-/

structure GLabel where
  id : Option String
  name : String
  ltype : String
  deriving DecidableEq, Repr

/-- One four-field structured summary (`modules/model.py`, `EmailSummary`). -/
structure Summary where
  summary : String
  category_major : String
  category_minor : String
  category_reasoning : String
  deriving DecidableEq, Repr

/-- The sentinel summary substituted by `LLMProcessor.summarize_emails` when the
model response cannot be parsed. -/
def sentinelSummary : Summary :=
  { summary := "Error parsing response"
    category_major := "None"
    category_minor := "None"
    category_reasoning := "None" }

/-- One message as stored in the mailbox: identity, header data, the raw
snippet, and the set of label ids currently attached. -/
structure MailMsg where
  id : String
  sender : String
  subject : String
  date : String
  snippet : String
  labelIds : List String
  deriving DecidableEq, Repr

/-- Mailbox state: the label list, the message store, and a counter from which
fresh label identifiers are minted by `createLabel`. -/
structure Mailbox where
  labels : List GLabel
  messages : List MailMsg
  nextLabelId : Nat
  deriving DecidableEq, Repr

/-- One wire call against the mailbox API (spec section 6). `createLabel`
records the visibility settings sent in the request body. -/
inductive MailCall where
  | listMessages (q : String)
  | getMessage (id : String)
  | listLabels
  | createLabel (name labelListVisibility messageListVisibility : String)
  | modifyMessage (messageId labelId : String)
  deriving DecidableEq, Repr

def isCreateCall : MailCall → Bool
  | .createLabel _ _ _ => true
  | _ => false

def isModifyCall : MailCall → Bool
  | .modifyMessage _ _ => true
  | _ => false

def countCreate (l : List MailCall) : Nat := l.countP isCreateCall

def countModify (l : List MailCall) : Nat := l.countP isModifyCall

/-- Python truthiness of `label.get('id')` / `label.get('name')`: the value is
truthy when it is a present, non-empty string. -/
def optTruthy : Option String → Bool
  | some s => s ≠ ""
  | none => false

/-- `GmailClient.list_labels` (gmail_client.py lines 247-275): fetch the
mailbox's labels, keep those of type `user` with truthy `id` and `name`; when
none exist fall back to the configured label names as placeholders carrying
`id = None`. `cfg` is `config.email_labels`. -/
def userLabelsOf (st : Mailbox) : List GLabel :=
  st.labels.filter (fun l => l.ltype = "user" && optTruthy l.id && l.name ≠ "")

def listLabelsFn (cfg : List String) (st : Mailbox) : List GLabel :=
  if userLabelsOf st ≠ [] then userLabelsOf st
  else if cfg ≠ [] then
    cfg.map (fun n => { id := none, name := n, ltype := "user" })
  else []

/-- The label-lookup loop of `GmailClient.apply_label` (lines 289-300): scan
the labels for a case-insensitive name match; a match whose `id` is truthy
ends the scan with that id; a match without a truthy id leaves the result
unset and the scan continues. -/
def findLabelId (labelName : String) : List GLabel → Option String
  | [] => none
  | l :: rest =>
    if pyLower l.name = pyLower labelName then
      match l.id with
      | some s => if s ≠ "" then some s else findLabelId labelName rest
      | none => findLabelId labelName rest
    else findLabelId labelName rest

/-- The fresh label id `users().labels().create` returns for the current
mailbox state. -/
def freshLabelId (st : Mailbox) : String := "Label_" ++ toString st.nextLabelId

/-- `users().labels().create`: append a user label with a fresh id. -/
def createLabelInMailbox (st : Mailbox) (labelName : String) : Mailbox :=
  { st with
    labels := st.labels ++ [{ id := some (freshLabelId st), name := labelName, ltype := "user" }]
    nextLabelId := st.nextLabelId + 1 }

/-- `users().messages().modify` with body `addLabelIds = [labelId]`: succeeds
when the message exists, attaching the label id (a no-op when it is already
attached, per the Gmail API); errors (`none`) when the message id is unknown. -/
def modifyMessageInMailbox (st : Mailbox) (messageId labelId : String) : Option Mailbox :=
  if (st.messages.filter (fun m => m.id = messageId)) ≠ [] then
    some { st with
      messages := st.messages.map (fun m =>
        if m.id = messageId then
          { m with labelIds :=
              if labelId ∈ m.labelIds then m.labelIds else m.labelIds ++ [labelId] }
        else m) }
  else none

/-- `GmailClient.apply_label` (gmail_client.py lines 277-338): skip names that
are falsy or case-insensitively `NONE`; otherwise list the labels, resolve the
label id (looking up, else creating with visibility `labelShow`/`show`), then
modify the message. Returns the new mailbox state, the boolean result, and the
wire calls performed. A modify failure is caught and reported as `false`; the
label created before it is not rolled back. -/
def applyLabel (cfg : List String) (st : Mailbox) (messageId labelName : String) :
    Mailbox × Bool × List MailCall :=
  if labelName = "" || pyUpper (pyTrim labelName) = "NONE" then
    (st, false, [])
  else
    let allLabels := listLabelsFn cfg st
    match findLabelId labelName allLabels with
    | some lid =>
      match modifyMessageInMailbox st messageId lid with
      | some st2 => (st2, true, [.listLabels, .modifyMessage messageId lid])
      | none => (st, false, [.listLabels, .modifyMessage messageId lid])
    | none =>
      let newId := freshLabelId st
      let st1 := createLabelInMailbox st labelName
      match modifyMessageInMailbox st1 messageId newId with
      | some st2 =>
        (st2, true, [.listLabels, .createLabel labelName "labelShow" "show",
          .modifyMessage messageId newId])
      | none =>
        (st1, false, [.listLabels, .createLabel labelName "labelShow" "show",
          .modifyMessage messageId newId])

/-- The label-lookup loop of `GmailLabels._update_label` (label.py lines
65-69): the first case-insensitive name match whose `id` is not `None` ends
the scan (even when that id is the empty string). -/
def findLabelIdU (labelName : String) : List GLabel → Option String
  | [] => none
  | l :: rest =>
    if pyLower l.name = pyLower labelName && l.id.isSome then l.id
    else findLabelIdU labelName rest

/-- `GmailLabels._update_label` (label.py lines 58-94): resolve the label id
against the caller-supplied label list (no `listLabels` wire call of its own),
create the label when the resolved id is falsy, then modify the message. -/
def updateLabel (st : Mailbox) (messageId labelName : String)
    (availableLabels : List GLabel) : Mailbox × Bool × List MailCall :=
  match findLabelIdU labelName availableLabels with
  | some s =>
    if s ≠ "" then
      match modifyMessageInMailbox st messageId s with
      | some st2 => (st2, true, [.modifyMessage messageId s])
      | none => (st, false, [.modifyMessage messageId s])
    else
      let newId := freshLabelId st
      let st1 := createLabelInMailbox st labelName
      match modifyMessageInMailbox st1 messageId newId with
      | some st2 =>
        (st2, true, [.createLabel labelName "labelShow" "show",
          .modifyMessage messageId newId])
      | none =>
        (st1, false, [.createLabel labelName "labelShow" "show",
          .modifyMessage messageId newId])
  | none =>
    let newId := freshLabelId st
    let st1 := createLabelInMailbox st labelName
    match modifyMessageInMailbox st1 messageId newId with
    | some st2 =>
      (st2, true, [.createLabel labelName "labelShow" "show",
        .modifyMessage messageId newId])
    | none =>
      (st1, false, [.createLabel labelName "labelShow" "show",
        .modifyMessage messageId newId])

/-! ## Label resolution: lemmas and claim C1 -/

/-- The scan of `apply_label` returns the id of the first case-insensitive
match whose id is truthy. -/
theorem findLabelId_eq_find? (name : String) (ls : List GLabel) :
    findLabelId name ls =
      (ls.find? (fun l => decide (pyLower l.name = pyLower name) && optTruthy l.id)).bind
        (fun l => l.id) := by
  induction ls with
  | nil => rfl
  | cons l rest ih =>
    by_cases hm : pyLower l.name = pyLower name
    · cases hid : l.id with
      | some s =>
        by_cases hs : s = ""
        · subst hs
          simp [findLabelId, List.find?, hm, hid, optTruthy, ih]
        · simp [findLabelId, List.find?, hm, hid, optTruthy, hs]
      | none =>
        simp [findLabelId, List.find?, hm, hid, optTruthy, ih]
    · simp [findLabelId, List.find?, hm, ih]

/-- The scan of `_update_label` returns the id of the first case-insensitive
match whose id is present. -/
theorem findLabelIdU_eq_find? (name : String) (ls : List GLabel) :
    findLabelIdU name ls =
      (ls.find? (fun l => decide (pyLower l.name = pyLower name) && l.id.isSome)).bind
        (fun l => l.id) := by
  induction ls with
  | nil => rfl
  | cons l rest ih =>
    by_cases hm : pyLower l.name = pyLower name
    · cases hid : l.id with
      | some s => simp [findLabelIdU, List.find?, hm, hid]
      | none => simp [findLabelIdU, List.find?, hm, hid, ih]
    · simp [findLabelIdU, List.find?, hm, ih]

/-- C1: label application resolution, for `GmailClient.apply_label` and
`GmailLabels._update_label`.  For every suggested label name (non-empty, not
the `NONE` sentinel) and every current label set: when some descriptor's
display name matches the suggested name case-insensitively and carries a real
provider identifier, that identifier (the first such) is the one sent in the
modify call and no label is created; when no descriptor matches, or the only
matches are configuration-sourced placeholders without a provider identifier,
a new label is created with the default visibility settings
(`labelShow`/`show`) and the freshly returned identifier is sent in the
modify call. -/
theorem c1_label_resolution (cfg : List String) (st st' : Mailbox)
    (mid name : String) (avail : List GLabel)
    (h1 : name ≠ "") (h2 : pyUpper (pyTrim name) ≠ "NONE")
    (hwf : ∀ l ∈ avail, l.id ≠ some "") :
    (∀ l lid,
      (listLabelsFn cfg st).find?
          (fun x => decide (pyLower x.name = pyLower name) && optTruthy x.id) = some l →
      l.id = some lid →
      (applyLabel cfg st mid name).2.2 = [.listLabels, .modifyMessage mid lid]) ∧
    ((listLabelsFn cfg st).find?
          (fun x => decide (pyLower x.name = pyLower name) && optTruthy x.id) = none →
      (applyLabel cfg st mid name).2.2 =
        [.listLabels, .createLabel name "labelShow" "show",
          .modifyMessage mid (freshLabelId st)]) ∧
    (∀ l lid,
      avail.find?
          (fun x => decide (pyLower x.name = pyLower name) && x.id.isSome) = some l →
      l.id = some lid →
      (updateLabel st' mid name avail).2.2 = [.modifyMessage mid lid]) ∧
    (avail.find?
          (fun x => decide (pyLower x.name = pyLower name) && x.id.isSome) = none →
      (updateLabel st' mid name avail).2.2 =
        [.createLabel name "labelShow" "show",
          .modifyMessage mid (freshLabelId st')]) := by
  have hguard : (name = "" || pyUpper (pyTrim name) = "NONE") = false := by
    simp [h1, h2]
  refine ⟨?_, ?_, ?_, ?_⟩
  · intro l lid hfind hid
    unfold applyLabel
    rw [hguard]
    simp only [Bool.false_eq_true, if_false]
    rw [findLabelId_eq_find?, hfind]
    simp only [Option.some_bind, hid]
    cases modifyMessageInMailbox st mid lid <;> rfl
  · intro hfind
    unfold applyLabel
    rw [hguard]
    simp only [Bool.false_eq_true, if_false]
    rw [findLabelId_eq_find?, hfind]
    simp only [Option.none_bind]
    cases modifyMessageInMailbox (createLabelInMailbox st name) mid (freshLabelId st) <;> rfl
  · intro l lid hfind hid
    have hmem : l ∈ avail := List.mem_of_find?_eq_some hfind
    have hne : lid ≠ "" := by
      intro hcontra
      exact hwf l hmem (by rw [hid, hcontra])
    unfold updateLabel
    rw [findLabelIdU_eq_find?, hfind]
    simp only [Option.some_bind, hid, ne_eq, hne, not_false_eq_true, if_true]
    cases modifyMessageInMailbox st' mid lid <;> rfl
  · intro hfind
    unfold updateLabel
    rw [findLabelIdU_eq_find?, hfind]
    simp only [Option.none_bind]
    cases modifyMessageInMailbox (createLabelInMailbox st' name) mid (freshLabelId st') <;> rfl

/-- Concrete mailbox used by the C1 witness: one user label `work` with id
`L7`, one message `m1`. -/
def mbxC1 : Mailbox :=
  { labels := [{ id := some "L7", name := "work", ltype := "user" }]
    messages := [{ id := "m1", sender := "a@b", subject := "s", date := "d",
                   snippet := "sn", labelIds := [] }]
    nextLabelId := 0 }

theorem c1_witness :
    (applyLabel [] mbxC1 "m1" "Work").2.2 =
      [MailCall.listLabels, MailCall.modifyMessage "m1" "L7"] ∧
    (updateLabel mbxC1 "m1" "Work" []).2.2 =
      [MailCall.createLabel "Work" "labelShow" "show",
        MailCall.modifyMessage "m1" "Label_0"] := by
  have h := c1_label_resolution [] mbxC1 mbxC1 "m1" "Work" []
    (by decide) (by decide) (by simp)
  refine ⟨h.1 { id := some "L7", name := "work", ltype := "user" } "L7" (by decide) rfl, ?_⟩
  have h4 := h.2.2.2 rfl
  exact h4

/-! ## Idempotence of label application (claim C2) -/

/-- The per-message update performed by a successful `modify` call. -/
def addLabelTo (messageId labelId : String) (m : MailMsg) : MailMsg :=
  if m.id = messageId then
    { m with labelIds :=
        if labelId ∈ m.labelIds then m.labelIds else m.labelIds ++ [labelId] }
  else m

theorem modifyMessage_eq_map (st st1 : Mailbox) (mid lid : String)
    (h : modifyMessageInMailbox st mid lid = some st1) :
    st1 = { st with messages := st.messages.map (addLabelTo mid lid) } := by
  unfold modifyMessageInMailbox at h
  by_cases hex : (st.messages.filter (fun m => m.id = mid)) ≠ []
  · rw [if_pos hex] at h
    injection h with h
    rw [← h]
    rfl
  · rw [if_neg hex] at h
    exact absurd h (by simp)

theorem addLabelTo_id (mid lid : String) (m : MailMsg) :
    (addLabelTo mid lid m).id = m.id := by
  unfold addLabelTo
  by_cases hid : m.id = mid <;> simp [hid]

theorem addLabelTo_idem (mid lid : String) (m : MailMsg) :
    addLabelTo mid lid (addLabelTo mid lid m) = addLabelTo mid lid m := by
  unfold addLabelTo
  by_cases hid : m.id = mid
  · simp only [hid, if_true]
    by_cases hmem : lid ∈ m.labelIds
    · simp [hmem]
    · simp [hmem]
  · simp [hid]

theorem filter_id_map_ne_nil (l : List MailMsg) (mid lid : String)
    (h : l.filter (fun m => m.id = mid) ≠ []) :
    (l.map (addLabelTo mid lid)).filter (fun m => m.id = mid) ≠ [] := by
  rw [ne_eq, List.filter_eq_nil_iff] at h ⊢
  push_neg at h ⊢
  obtain ⟨m, hm, hid⟩ := h
  refine ⟨addLabelTo mid lid m, List.mem_map_of_mem _ hm, ?_⟩
  rw [addLabelTo_id]
  exact hid

/-- A successful `modify` is idempotent on the mailbox: repeating the same
`addLabelIds` request returns the same state. -/
theorem modify_idem (st st1 : Mailbox) (mid lid : String)
    (h : modifyMessageInMailbox st mid lid = some st1) :
    modifyMessageInMailbox st1 mid lid = some st1 := by
  have hmap := modifyMessage_eq_map st st1 mid lid h
  have hex : (st.messages.filter (fun m => m.id = mid)) ≠ [] := by
    unfold modifyMessageInMailbox at h
    by_cases hex : (st.messages.filter (fun m => m.id = mid)) ≠ []
    · exact hex
    · rw [if_neg hex] at h
      exact absurd h (by simp)
  subst hmap
  unfold modifyMessageInMailbox
  rw [if_pos (filter_id_map_ne_nil st.messages mid lid hex)]
  congr 1
  congr 1
  show (st.messages.map (addLabelTo mid lid)).map (addLabelTo mid lid) =
    st.messages.map (addLabelTo mid lid)
  rw [List.map_map]
  apply List.map_congr_left
  intro m _
  exact addLabelTo_idem mid lid m

/-- The `modify` call leaves the label list and the id counter unchanged. -/
theorem modify_labels_eq (st st1 : Mailbox) (mid lid : String)
    (h : modifyMessageInMailbox st mid lid = some st1) :
    st1.labels = st.labels ∧ st1.nextLabelId = st.nextLabelId := by
  have hmap := modifyMessage_eq_map st st1 mid lid h
  subst hmap
  exact ⟨rfl, rfl⟩

/-- Case-insensitive matching only depends on the lower-cased name. -/
theorem findLabelId_congr (n1 n2 : String) (h : pyLower n1 = pyLower n2)
    (ls : List GLabel) : findLabelId n1 ls = findLabelId n2 ls := by
  induction ls with
  | nil => rfl
  | cons l rest ih =>
    unfold findLabelId
    rw [h, ih]

theorem findLabelId_cons (n : String) (l : GLabel) (rest : List GLabel) :
    findLabelId n (l :: rest) =
      if pyLower l.name = pyLower n then
        match l.id with
        | some s => if s ≠ "" then some s else findLabelId n rest
        | none => findLabelId n rest
      else findLabelId n rest := rfl

theorem findLabelId_append (n : String) (a b : List GLabel) :
    findLabelId n (a ++ b) =
      match findLabelId n a with
      | some s => some s
      | none => findLabelId n b := by
  induction a with
  | nil => rfl
  | cons l rest ih =>
    rw [List.cons_append, findLabelId_cons, findLabelId_cons]
    by_cases hm : pyLower l.name = pyLower n
    · simp only [hm, if_true]
      cases hid : l.id with
      | some s =>
        by_cases hs : s = ""
        · subst hs
          simp only [ne_eq, not_true_eq_false, Bool.false_eq_true, if_false, ih]
        · simp only [ne_eq, hs, not_false_eq_true, if_true]
      | none =>
        simp only [ih]
    · simp only [hm, if_false, ih]

theorem freshLabelId_ne_empty (st : Mailbox) : freshLabelId st ≠ "" := by
  intro h
  have hd := congrArg String.data h
  simp [freshLabelId, String.append] at hd

theorem listLabelsFn_congr (cfg : List String) (st st' : Mailbox)
    (h : st'.labels = st.labels) : listLabelsFn cfg st' = listLabelsFn cfg st := by
  unfold listLabelsFn userLabelsOf
  rw [h]

/-- C2: idempotence of `GmailClient.apply_label`.  If a first call with label
name `n1` on message `mid` succeeded, then a second call with any
case-variant `n2` of the same name leaves the mailbox state unchanged,
reports success, and performs no `createLabel` wire call. -/
theorem c2_apply_label_idempotent (cfg : List String) (st : Mailbox)
    (mid n1 n2 : String) (hcase : pyLower n1 = pyLower n2)
    (h : (applyLabel cfg st mid n1).2.1 = true) :
    (applyLabel cfg (applyLabel cfg st mid n1).1 mid n2).1 =
      (applyLabel cfg st mid n1).1 ∧
    (applyLabel cfg (applyLabel cfg st mid n1).1 mid n2).2.1 = true ∧
    countCreate (applyLabel cfg (applyLabel cfg st mid n1).1 mid n2).2.2 = 0 := by
  cases hg1 : (decide (n1 = "") || decide (pyUpper (pyTrim n1) = "NONE")) with
  | true =>
    exfalso
    unfold applyLabel at h
    rw [hg1] at h
    simp at h
  | false =>
    have hg1' := hg1
    simp only [Bool.or_eq_false_iff, decide_eq_false_iff_not] at hg1'
    obtain ⟨h1e, h1n⟩ := hg1'
    have h2e : n2 ≠ "" := ne_empty_of_pyLower_eq n1 n2 hcase h1e
    have h2n : pyUpper (pyTrim n2) ≠ "NONE" := by
      rw [← pyUpper_pyTrim_of_pyLower_eq n1 n2 hcase]
      exact h1n
    have hg2 : (decide (n2 = "") || decide (pyUpper (pyTrim n2) = "NONE")) = false := by
      simp [h2e, h2n]
    cases hf : findLabelId n1 (listLabelsFn cfg st) with
    | some lid =>
      cases hm : modifyMessageInMailbox st mid lid with
      | some st2 =>
        have hr1 : applyLabel cfg st mid n1 =
            (st2, true, [.listLabels, .modifyMessage mid lid]) := by
          unfold applyLabel
          rw [hg1]
          simp only [Bool.false_eq_true, if_false, hf, hm]
        rw [hr1]
        have hls : listLabelsFn cfg st2 = listLabelsFn cfg st :=
          listLabelsFn_congr cfg st st2 (modify_labels_eq st st2 mid lid hm).1
        have hf2 : findLabelId n2 (listLabelsFn cfg st2) = some lid := by
          rw [hls, ← findLabelId_congr n1 n2 hcase, hf]
        have hm2 : modifyMessageInMailbox st2 mid lid = some st2 :=
          modify_idem st st2 mid lid hm
        have hr2 : applyLabel cfg st2 mid n2 =
            (st2, true, [.listLabels, .modifyMessage mid lid]) := by
          unfold applyLabel
          rw [hg2]
          simp only [Bool.false_eq_true, if_false, hf2, hm2]
        rw [hr2]
        exact ⟨rfl, rfl, rfl⟩
      | none =>
        exfalso
        unfold applyLabel at h
        rw [hg1] at h
        simp only [Bool.false_eq_true, if_false, hf, hm] at h
    | none =>
      cases hm : modifyMessageInMailbox (createLabelInMailbox st n1) mid (freshLabelId st) with
      | some st2 =>
        have hr1 : applyLabel cfg st mid n1 =
            (st2, true, [.listLabels, .createLabel n1 "labelShow" "show",
              .modifyMessage mid (freshLabelId st)]) := by
          unfold applyLabel
          rw [hg1]
          simp only [Bool.false_eq_true, if_false, hf, hm]
        rw [hr1]
        have hlab2 : st2.labels = st.labels ++
            [{ id := some (freshLabelId st), name := n1, ltype := "user" }] := by
          rw [(modify_labels_eq _ _ _ _ hm).1]
          rfl
        have hfilter : userLabelsOf st2 = userLabelsOf st ++
            [{ id := some (freshLabelId st), name := n1, ltype := "user" }] := by
          unfold userLabelsOf
          rw [hlab2, List.filter_append]
          congr 1
          simp [optTruthy, freshLabelId_ne_empty st, h1e]
        have hls2 : listLabelsFn cfg st2 = userLabelsOf st ++
            [{ id := some (freshLabelId st), name := n1, ltype := "user" }] := by
          unfold listLabelsFn
          rw [hfilter]
          rw [if_pos (by simp)]
        have hFnone : findLabelId n1 (userLabelsOf st) = none := by
          by_cases hFe : userLabelsOf st = []
          · rw [hFe]
            rfl
          · have hlst : listLabelsFn cfg st = userLabelsOf st := by
              unfold listLabelsFn
              rw [if_pos hFe]
            rw [hlst] at hf
            exact hf
        have hf2 : findLabelId n2 (listLabelsFn cfg st2) = some (freshLabelId st) := by
          rw [hls2, ← findLabelId_congr n1 n2 hcase, findLabelId_append, hFnone]
          simp [findLabelId, freshLabelId_ne_empty st]
        have hm2 : modifyMessageInMailbox st2 mid (freshLabelId st) = some st2 :=
          modify_idem _ _ _ _ hm
        have hr2 : applyLabel cfg st2 mid n2 =
            (st2, true, [.listLabels, .modifyMessage mid (freshLabelId st)]) := by
          unfold applyLabel
          rw [hg2]
          simp only [Bool.false_eq_true, if_false, hf2, hm2]
        rw [hr2]
        exact ⟨rfl, rfl, rfl⟩
      | none =>
        exfalso
        unfold applyLabel at h
        rw [hg1] at h
        simp only [Bool.false_eq_true, if_false, hf, hm] at h

/-- Concrete mailbox used by the C2 witness: empty label list, one message,
so the first call creates the label and the second call must not. -/
def mbxC2 : Mailbox :=
  { labels := []
    messages := [{ id := "m1", sender := "a@b", subject := "s", date := "d",
                   snippet := "sn", labelIds := [] }]
    nextLabelId := 3 }

theorem c2_witness :
    (applyLabel ["Updates"] (applyLabel ["Updates"] mbxC2 "m1" "Updates").1
        "m1" "UPDATES").1 = (applyLabel ["Updates"] mbxC2 "m1" "Updates").1 ∧
    (applyLabel ["Updates"] (applyLabel ["Updates"] mbxC2 "m1" "Updates").1
        "m1" "UPDATES").2.1 = true ∧
    countCreate (applyLabel ["Updates"] (applyLabel ["Updates"] mbxC2 "m1" "Updates").1
        "m1" "UPDATES").2.2 = 0 :=
  c2_apply_label_idempotent ["Updates"] mbxC2 "m1" "Updates" "UPDATES"
    (by decide) (by decide)

/-! ## Message payload trees and content extraction

`MimePart` embeds one node of a Gmail message payload: its media type, its
body data (`none` when the body carries no `data` key), and its sub-parts
(`hasPartsKey` records whether the `parts` key is present at all, which
`EmailProcessor.get_message_content` distinguishes from an empty list).
Base64url decoding (`dec`) and HTML-to-text conversion (`h2t`) are external
collaborators passed in as functions. -/

inductive MimePart where
  | mk (mimeType : String) (body : Option String) (hasPartsKey : Bool)
       (parts : List MimePart)

def MimePart.mimeTypeOf : MimePart → String
  | .mk mt _ _ _ => mt

def MimePart.bodyOf : MimePart → Option String
  | .mk _ b _ _ => b

/-- `GmailClient._decode_body`: missing or falsy `data` decodes to `''`;
otherwise the external base64url decoder runs. -/
def decodeBody (dec : String → String) : Option String → String
  | some d => if d = "" then "" else dec d
  | none => ""

mutual

/-- `GmailClient._find_part_by_mimetype`: depth-first search for the first
part (the payload itself included) whose `mimeType` equals the target. -/
def findPartByMimetype (m : String) : MimePart → Option MimePart
  | .mk mt b k ps =>
    if mt = m then some (.mk mt b k ps)
    else if k then findPartInList m ps
    else none

def findPartInList (m : String) : List MimePart → Option MimePart
  | [] => none
  | p :: ps =>
    match findPartByMimetype m p with
    | some q => some q
    | none => findPartInList m ps

end

mutual

/-- All parts of a payload tree in depth-first preorder (specification-side
flattening used to state what `_find_part_by_mimetype` finds). -/
def allParts : MimePart → List MimePart
  | .mk mt b k ps => .mk mt b k ps :: (if k then allPartsList ps else [])

def allPartsList : List MimePart → List MimePart
  | [] => []
  | p :: ps => allParts p ++ allPartsList ps

end

/-- The body extraction of `GmailClient.get_message_content` when
`fetch_full` is set (gmail_client.py lines 200-217): first `text/plain` part,
else HTML-to-text of the first `text/html` part, else the payload's own body
data, else the snippet. -/
def fullBodyContent (dec h2t : String → String) (payload : MimePart)
    (snippet : String) : String :=
  match findPartByMimetype "text/plain" payload with
  | some pt => decodeBody dec pt.bodyOf
  | none =>
    match findPartByMimetype "text/html" payload with
    | some ph => h2t (decodeBody dec ph.bodyOf)
    | none =>
      match payload.bodyOf with
      | some _ => decodeBody dec payload.bodyOf
      | none => snippet

/-- The body of one fetched message as `GmailClient.get_message_content`
returns it: the snippet unless `fetch_full` is set. -/
def messageBodyContent (dec h2t : String → String) (fetchFull : Bool)
    (payload : MimePart) (snippet : String) : String :=
  if fetchFull then fullBodyContent dec h2t payload snippet else snippet

def joinSpace (l : List String) : String := String.intercalate " " l

mutual

/-- `EmailProcessor.get_message_content` (email.py lines 27-40): when the
`parts` key is present, recurse into every sub-part and join with a space
(regardless of media type); otherwise decode the node's own body data. -/
def emailProcContent (dec : String → String) : MimePart → String
  | .mk _ b k ps =>
    if k then joinSpace (emailProcContentList dec ps)
    else
      match b with
      | some d => dec d
      | none => ""

def emailProcContentList (dec : String → String) : List MimePart → List String
  | [] => []
  | p :: ps => emailProcContent dec p :: emailProcContentList dec ps

end

/-! ## Date selection and filter queries -/

/-- The two fatal configuration failures of
`EmailClassifier._validate_date_arguments` (both `ValueError` in the source;
the spec names this taxon `ConfigurationError`). -/
inductive ConfigError where
  | datePairMismatch
  | daysOldConflict
  deriving DecidableEq, Repr

/-- A resolved date selection (spec section 3, RunPlan). -/
inductive DateSel where
  | dateRange (dateFrom dateTo : String)
  | lookbackDays (daysOld : Int)
  deriving DecidableEq, Repr

/-- `EmailClassifier._validate_date_arguments` (classifier.py lines 63-96):
presence checks are `is not None`; a lone date bound or a days-old value
combined with a bound is fatal; otherwise the range wins, then the explicit
days-old, then the configured default. -/
def validateDateArguments (dateFrom dateTo : Option String) (daysOld : Option Int)
    (configDaysOld : Int) : Except ConfigError DateSel :=
  if (dateFrom.isSome && !dateTo.isSome) || (!dateFrom.isSome && dateTo.isSome) then
    .error .datePairMismatch
  else if daysOld.isSome && (dateFrom.isSome || dateTo.isSome) then
    .error .daysOldConflict
  else if dateFrom.isSome && dateTo.isSome then
    .ok (.dateRange (dateFrom.getD "") (dateTo.getD ""))
  else if daysOld.isSome then
    .ok (.lookbackDays (daysOld.getD 0))
  else .ok (.lookbackDays configDaysOld)

/-- A calendar date, as produced by the external `datetime` arithmetic. -/
structure YMDDate where
  y : Nat
  m : Nat
  d : Nat
  deriving DecidableEq, Repr

def pad2 (n : Nat) : String := if n < 10 then "0" ++ toString n else toString n

def pad4 (n : Nat) : String :=
  if n < 10 then "000" ++ toString n
  else if n < 100 then "00" ++ toString n
  else if n < 1000 then "0" ++ toString n
  else toString n

/-- `strftime('%Y/%m/%d')` on a date. -/
def formatSlashDate (dt : YMDDate) : String :=
  pad4 dt.y ++ "/" ++ pad2 dt.m ++ "/" ++ pad2 dt.d

/-- The date-filter state `fetch_emails` reads off the validated args object:
in range mode both bounds are the caller's strings and `days_old` is `None`;
in lookback mode the bounds are `None`. -/
structure FetchArgs where
  dateFrom : Option String
  dateTo : Option String
  daysOld : Option Int
  deriving DecidableEq, Repr

/-- The filter-query construction of `GmailClient.fetch_emails`
(gmail_client.py lines 122-129).  `lookback` models
`datetime.now() - timedelta(days=n)`.  Both branch guards are Python
truthiness; when neither date bound is truthy and `days_old` is `None`
(possible after range-mode validation zeroed it), `timedelta(days=None)`
raises, modelled as `error`. -/
def fetchFilterQuery (lookback : Int → YMDDate) (a : FetchArgs) :
    Except Unit String :=
  if optTruthy a.dateFrom && optTruthy a.dateTo then
    .ok ("is:unread" ++ " after:" ++ a.dateFrom.getD "" ++ " before:" ++ a.dateTo.getD "")
  else
    match a.daysOld with
    | some n => .ok ("is:unread" ++ " after:" ++ formatSlashDate (lookback n))
    | none => .error ()

/-- The filter-query construction of `EmailProcessor.get_unread_emails`
(email.py lines 110-124).  `parse` models `datetime.strptime(..., '%Y-%m-%d')`
as days; the branch for ranges of 30 days or more recomputes a clamped end
date (`clamped`), mirroring `end_date = start_date + timedelta(days=30)`,
but interpolates `args.end_date` like the short branch.  Note the literal
`" before: "` with a space after the colon, as in the source. -/
def getUnreadEmailsQuery (parse : String → Int) (lookback : Int → YMDDate)
    (startDate endDate : Option String) (daysOld : Option Int) : String :=
  if optTruthy startDate && optTruthy endDate then
    let sd := parse (startDate.getD "")
    let ed := parse (endDate.getD "")
    if ed - sd < 30 then
      "is:unread" ++ " after:" ++ startDate.getD "" ++ " before: " ++ endDate.getD ""
    else
      let clamped := sd + 30
      let _ := clamped
      "is:unread" ++ " after:" ++ startDate.getD "" ++ " before: " ++ endDate.getD ""
  else
    match daysOld with
    | some n =>
      if n ≠ 0 then "is:unread" ++ " after:" ++ formatSlashDate (lookback n)
      else "is:unread"
    | none => "is:unread"

/-! ## LLM stages -/

/-- One fetched email record, as assembled by `fetch_emails`:
the dictionary `{'id', 'sender', 'subject', 'date', 'content', 'snippet'}`
plus the optional `summary` entry attached later. -/
structure EmailRec where
  id : String
  sender : String
  subject : String
  date : String
  content : String
  snippet : String
  summary : Option Summary
  deriving DecidableEq, Repr

/-- The outcome of one summarization model call:
`parser.parse(self.llm.invoke(messages).content)` combined, since both
failure modes are caught by the same handler. -/
def summaryOutcome (invoke : String → Except Unit Summary) (content : String) :
    Summary :=
  match invoke content with
  | .ok s => s
  | .error _ => sentinelSummary

/-- `LLMProcessor.summarize_emails` (llm.py lines 31-79): each record gets its
model summary, or the sentinel when the call or the structured-output parse
fails; the loop then continues with the next record. -/
def summarizeEmails (invoke : String → Except Unit Summary) :
    List EmailRec → List EmailRec
  | [] => []
  | e :: rest =>
    { e with summary := some (summaryOutcome invoke e.content) } ::
      summarizeEmails invoke rest

/-- The classification prompt: either the labelled template (with the
candidate label names) or the label-free variant (llm.py lines 102-147),
each carrying sender, subject and the record's summary structure (the code
passes `email['summary']` as the content slot). -/
inductive Prompt where
  | withLabels (labels : List String) (emailFrom emailSubject : String)
      (emailContent : Option Summary)
  | withoutLabels (emailFrom emailSubject : String) (emailContent : Option Summary)
  deriving DecidableEq, Repr

/-- Prompt choice per email: the labelled template when `len(label_names) > 0`
(llm.py line 157). -/
def mkPrompt (labelNames : List String) (e : EmailRec) : Prompt :=
  if labelNames.length > 0 then .withLabels labelNames e.sender e.subject e.summary
  else .withoutLabels e.sender e.subject e.summary

def classifyGo (invoke : Prompt → String) (labelNames : List String) :
    List EmailRec → List (String × String)
  | [] => []
  | e :: rest =>
    (e.subject, pyTrim (invoke (mkPrompt labelNames e))) ::
      classifyGo invoke labelNames rest

/-- `LLMProcessor.classify_emails` (llm.py lines 81-178) with the model
invocation as a total function: one `(subject, stripped response)` pair per
record, in order. -/
def classifyEmails (invoke : Prompt → String) (emails : List EmailRec)
    (availableLabels : List GLabel) : List (String × String) :=
  classifyGo invoke (availableLabels.map (fun l => l.name)) emails

def classifyGoF (invoke : Prompt → Except Unit String) (labelNames : List String) :
    List EmailRec → Except Unit (List (String × String))
  | [] => .ok []
  | e :: rest =>
    match invoke (mkPrompt labelNames e) with
    | .error er => .error er
    | .ok r =>
      match classifyGoF invoke labelNames rest with
      | .error er => .error er
      | .ok l => .ok ((e.subject, pyTrim r) :: l)

/-- `LLMProcessor.classify_emails` with a fallible model invocation: the loop
body has no exception handler, so the first failing `llm.invoke` aborts the
whole stage (the exception leaves the method). -/
def classifyEmailsF (invoke : Prompt → Except Unit String) (emails : List EmailRec)
    (availableLabels : List GLabel) : Except Unit (List (String × String)) :=
  classifyGoF invoke (availableLabels.map (fun l => l.name)) emails

/-! ## The run orchestrator (`EmailClassifier.run`) -/

/-- The static defaults the `Config` object supplies. -/
structure ConfigModel where
  daysOld : Int
  dryRun : Bool
  useFullContent : Bool
  emailLabels : List String
  deriving DecidableEq, Repr

/-- Raw caller arguments before resolution (`argparse` namespace or
`APIArgs`): `none` is an unspecified flag, resolved against the config
defaults by `_set_boolean_defaults` / `_validate_date_arguments`. -/
structure RunArgs where
  dateFrom : Option String
  dateTo : Option String
  daysOld : Option Int
  useFullContent : Option Bool
  dryRun : Option Bool
  deriving DecidableEq, Repr

/-- Outcome of one run.  `configError` and `authError` escape
`EmailClassifier.__init__` (fatal); everything raised inside `run()` is
swallowed by its top-level handler (`swallowed`); otherwise the run finishes,
counting applied labels in live mode. -/
inductive RunResult where
  | configError (e : ConfigError)
  | authError
  | swallowed
  | noEmails
  | doneDry
  | done (applied : Nat)
  deriving DecidableEq, Repr

/-- The per-message loop of `GmailClient.fetch_emails` (gmail_client.py lines
153-168): `get_message_content` catches every per-message error internally
and returns `None` (lines 221-223); a `None` result skips that message
(`if content_data:`) and the loop continues with the next one.  `payloadOf`
returns the payload tree the server hands back for a message id, or `none`
when that message's detail fetch fails. -/
def fetchRecords (dec h2t : String → String)
    (payloadOf : String → Option MimePart) (fetchFull : Bool) :
    List MailMsg → List EmailRec
  | [] => []
  | m :: rest =>
    match payloadOf m.id with
    | some pl =>
      { id := m.id, sender := m.sender, subject := m.subject, date := m.date,
        content := messageBodyContent dec h2t fetchFull pl m.snippet,
        snippet := m.snippet, summary := none } ::
        fetchRecords dec h2t payloadOf fetchFull rest
    | none => fetchRecords dec h2t payloadOf fetchFull rest

/-- `GmailClient.fetch_emails` after the query is built: one `listMessages`
call, then one `getMessage` per returned message (also for messages whose
content extraction then fails); the record list is the per-message loop
`fetchRecords`. -/
def fetchEmails (dec h2t : String → String) (payloadOf : String → Option MimePart)
    (mbx : Mailbox) (fetchFull : Bool) (q : String) :
    List EmailRec × List MailCall :=
  (fetchRecords dec h2t payloadOf fetchFull mbx.messages,
    .listMessages q :: mbx.messages.map (fun m => .getMessage m.id))

/-- The snippet-mode summary synthesis of `EmailClassifier._process_emails`
(classifier.py lines 216-223): when a record has no summary yet, attach one
whose synopsis is the record's content and whose category fields are empty. -/
def attachSnippetSummaries : List EmailRec → List EmailRec
  | [] => []
  | e :: rest =>
    (match e.summary with
     | some _ => e
     | none =>
       let s2 : Summary :=
         { summary := e.content, category_major := "",
           category_minor := "", category_reasoning := "" }
       { e with summary := some s2 }) ::
      attachSnippetSummaries rest

/-- The label-application loop of `EmailClassifier.run` (classifier.py lines
164-180): each zipped pair whose label is truthy and not the exact string
`NONE` gets an `apply_label` call; every pair is examined in order, whatever
the outcome of earlier pairs (`none` marks a skipped pair, `some b` the
result of its `apply_label` call). -/
def applyAll (cfg : List String) (st : Mailbox) :
    List (EmailRec × (String × String)) → Mailbox × List (Option Bool) × List MailCall
  | [] => (st, [], [])
  | (e, (_, label)) :: rest =>
    if label ≠ "" && label ≠ "NONE" then
      let r := applyLabel cfg st e.id label
      let rest' := applyAll cfg r.1 rest
      (rest'.1, some r.2.1 :: rest'.2.1, r.2.2 ++ rest'.2.2)
    else
      let rest' := applyAll cfg st rest
      (rest'.1, none :: rest'.2.1, rest'.2.2)

/-- `EmailClassifier` end to end: `__init__` (date validation, then
authentication) followed by `run()` (fetch, optional summarization, label
listing, classification, then dry-run logging or the application loop).
Returns the outcome, the final mailbox state, and the wire-call trace. -/
def runPipeline (dec h2t : String → String) (lookback : Int → YMDDate)
    (payloadOf : String → Option MimePart)
    (sumInvoke : String → Except Unit Summary) (clsInvoke : Prompt → String)
    (cfg : ConfigModel) (authOk : Bool) (mbx : Mailbox) (args : RunArgs) :
    RunResult × Mailbox × List MailCall :=
  match validateDateArguments args.dateFrom args.dateTo args.daysOld cfg.daysOld with
  | .error e => (.configError e, mbx, [])
  | .ok sel =>
    if !authOk then (.authError, mbx, [])
    else
      let fetchFull := args.useFullContent.getD cfg.useFullContent
      let dry := args.dryRun.getD cfg.dryRun
      let fargs : FetchArgs :=
        match sel with
        | .dateRange f t => { dateFrom := some f, dateTo := some t, daysOld := none }
        | .lookbackDays n => { dateFrom := none, dateTo := none, daysOld := some n }
      match fetchFilterQuery lookback fargs with
      | .error _ => (.swallowed, mbx, [])
      | .ok q =>
        let fetched := fetchEmails dec h2t payloadOf mbx fetchFull q
        if fetched.1.length = 0 then (.noEmails, mbx, fetched.2)
        else
          let emails2 := if fetchFull then summarizeEmails sumInvoke fetched.1
                         else attachSnippetSummaries fetched.1
          let allLabels := listLabelsFn cfg.emailLabels mbx
          let cls := classifyEmails clsInvoke emails2 allLabels
          if dry then (.doneDry, mbx, fetched.2 ++ [MailCall.listLabels])
          else
            let ares := applyAll cfg.emailLabels mbx (emails2.zip cls)
            (.done (ares.2.1.countP (fun b => b = some true)), ares.1,
              fetched.2 ++ [MailCall.listLabels] ++ ares.2.2)

/-! ## Claim C3: date-selection resolution -/

/-- C3: date-selection resolution.  Exactly one supplied date bound is a
`ConfigurationError` (whatever `days_old` holds); `days_old` together with
both bounds is a `ConfigurationError`; otherwise both bounds give
`DateRange`, a lone `days_old` gives `LookbackDays` of it, and nothing gives
`LookbackDays` of the static default.  When validation fails, the pipeline
ends with that error and an empty wire-call trace: the failure precedes any
mailbox call. -/
theorem c3_date_resolution (f t : String) (d c : Int) (dd : Option Int)
    (dec h2t : String → String) (lookback : Int → YMDDate)
    (payloadOf : String → Option MimePart)
    (sumInvoke : String → Except Unit Summary) (clsInvoke : Prompt → String)
    (cfg : ConfigModel) (authOk : Bool) (mbx : Mailbox) (args : RunArgs)
    (e : ConfigError) :
    validateDateArguments (some f) none dd c = .error .datePairMismatch ∧
    validateDateArguments none (some t) dd c = .error .datePairMismatch ∧
    validateDateArguments (some f) (some t) (some d) c = .error .daysOldConflict ∧
    validateDateArguments (some f) (some t) none c = .ok (.dateRange f t) ∧
    validateDateArguments none none (some d) c = .ok (.lookbackDays d) ∧
    validateDateArguments none none none c = .ok (.lookbackDays c) ∧
    (validateDateArguments args.dateFrom args.dateTo args.daysOld cfg.daysOld =
        .error e →
      runPipeline dec h2t lookback payloadOf sumInvoke clsInvoke cfg authOk mbx args =
        (.configError e, mbx, [])) := by
  refine ⟨rfl, rfl, rfl, rfl, rfl, rfl, ?_⟩
  intro h
  unfold runPipeline
  rw [h]

theorem c3_witness :
    validateDateArguments (some "2024-01-01") none none 7 =
      .error .datePairMismatch ∧
    validateDateArguments (some "2024-01-01") (some "2024-02-01") none 7 =
      .ok (.dateRange "2024-01-01" "2024-02-01") ∧
    runPipeline id id (fun _ => ⟨2024, 1, 1⟩) (fun _ => some (.mk "text/plain" none false []))
        (fun _ => .error ()) (fun _ => "NONE")
        { daysOld := 7, dryRun := false, useFullContent := false, emailLabels := [] }
        true mbxC2
        { dateFrom := some "2024-01-01", dateTo := none, daysOld := none,
          useFullContent := none, dryRun := none } =
      (.configError .datePairMismatch, mbxC2, []) := by
  have h := c3_date_resolution "2024-01-01" "2024-02-01" 5 7 none
    id id (fun _ => ⟨2024, 1, 1⟩) (fun _ => some (.mk "text/plain" none false []))
    (fun _ => .error ()) (fun _ => "NONE")
    { daysOld := 7, dryRun := false, useFullContent := false, emailLabels := [] }
    true mbxC2
    { dateFrom := some "2024-01-01", dateTo := none, daysOld := none,
      useFullContent := none, dryRun := none }
    .datePairMismatch
  exact ⟨h.1, h.2.2.2.1, h.2.2.2.2.2.2 rfl⟩

/-! ## Claim C4: classification preserves order and cardinality -/

theorem classifyGo_map_fst (invoke : Prompt → String) (labelNames : List String)
    (emails : List EmailRec) :
    (classifyGo invoke labelNames emails).map Prod.fst =
      emails.map (fun e => e.subject) := by
  induction emails with
  | nil => rfl
  | cons e rest ih => simp [classifyGo, ih]

theorem classifyGo_length (invoke : Prompt → String) (labelNames : List String)
    (emails : List EmailRec) :
    (classifyGo invoke labelNames emails).length = emails.length := by
  induction emails with
  | nil => rfl
  | cons e rest ih => simp [classifyGo, ih]

/-- C4: for every email list and candidate label list, with the model call as
a function, `classify_emails` yields exactly one result per input record, in
input order, the i-th result's subject being the i-th record's subject. -/
theorem c4_classification_order (invoke : Prompt → String)
    (emails : List EmailRec) (availableLabels : List GLabel) :
    (classifyEmails invoke emails availableLabels).length = emails.length ∧
    (classifyEmails invoke emails availableLabels).map Prod.fst =
      emails.map (fun e => e.subject) := by
  exact ⟨classifyGo_length _ _ _, classifyGo_map_fst _ _ _⟩

/-! ## Claim C8: summarization failure isolation -/

theorem summarizeEmails_length (invoke : String → Except Unit Summary)
    (emails : List EmailRec) :
    (summarizeEmails invoke emails).length = emails.length := by
  induction emails with
  | nil => rfl
  | cons e rest ih => simp [summarizeEmails, ih]

theorem summarizeEmails_getElem? (invoke : String → Except Unit Summary)
    (emails : List EmailRec) (i : Nat) :
    (summarizeEmails invoke emails)[i]? =
      (emails[i]?).map
        (fun e => { e with summary := some (summaryOutcome invoke e.content) }) := by
  induction emails generalizing i with
  | nil => simp [summarizeEmails]
  | cons e rest ih =>
    cases i with
    | zero => simp [summarizeEmails]
    | succ n => simpa [summarizeEmails] using ih n

theorem summarizeEmails_summary_isSome (invoke : String → Except Unit Summary)
    (emails : List EmailRec) :
    ∀ r ∈ summarizeEmails invoke emails, r.summary.isSome := by
  induction emails with
  | nil => intro r hr; simp [summarizeEmails] at hr
  | cons e rest ih =>
    intro r hr
    simp only [summarizeEmails, List.mem_cons] at hr
    cases hr with
    | inl h => subst h; rfl
    | inr h => exact ih r h

/-- C8: `summarize_emails` returns one record per input, in order; every
output record carries a four-field summary, which is the model's summary when
the call and the structured-output parse succeed and the sentinel
(`Error parsing response` with `None` category fields) when they fail; a
failure on one record never prevents the later records from being
processed. -/
theorem c8_summarize_isolated (invoke : String → Except Unit Summary)
    (emails : List EmailRec) :
    (summarizeEmails invoke emails).length = emails.length ∧
    (∀ i : Nat, (summarizeEmails invoke emails)[i]? =
      (emails[i]?).map
        (fun e => { e with summary := some (summaryOutcome invoke e.content) })) ∧
    (∀ r ∈ summarizeEmails invoke emails, r.summary.isSome) := by
  exact ⟨summarizeEmails_length _ _, fun i => summarizeEmails_getElem? _ _ i,
    summarizeEmails_summary_isSome _ _⟩

theorem c8_witness :
    (summarizeEmails
        (fun c => if c = "bad" then .error () else
          .ok { summary := "S", category_major := "M", category_minor := "m",
                category_reasoning := "r" })
        [{ id := "1", sender := "s1", subject := "a", date := "", content := "good",
           snippet := "", summary := none },
         { id := "2", sender := "s2", subject := "b", date := "", content := "bad",
           snippet := "", summary := none }]).length = 2 ∧
    (summarizeEmails
        (fun c => if c = "bad" then .error () else
          .ok { summary := "S", category_major := "M", category_minor := "m",
                category_reasoning := "r" })
        [{ id := "1", sender := "s1", subject := "a", date := "", content := "good",
           snippet := "", summary := none },
         { id := "2", sender := "s2", subject := "b", date := "", content := "bad",
           snippet := "", summary := none }])[1]? =
      some { id := "2", sender := "s2", subject := "b", date := "",
             content := "bad", snippet := "",
             summary := some sentinelSummary } := by
  have h := c8_summarize_isolated
    (fun c => if c = "bad" then .error () else
      .ok { summary := "S", category_major := "M", category_minor := "m",
            category_reasoning := "r" })
    [{ id := "1", sender := "s1", subject := "a", date := "", content := "good",
       snippet := "", summary := none },
     { id := "2", sender := "s2", subject := "b", date := "", content := "bad",
       snippet := "", summary := none }]
  exact ⟨h.1, (h.2.1 1).trans rfl⟩

/-! ## Claim C5: dry-run performs no mailbox mutation -/

theorem fetch_trace_no_mutation (dec h2t : String → String)
    (payloadOf : String → Option MimePart) (mbx : Mailbox) (full : Bool) (q : String) :
    countCreate (fetchEmails dec h2t payloadOf mbx full q).2 = 0 ∧
    countModify (fetchEmails dec h2t payloadOf mbx full q).2 = 0 := by
  unfold fetchEmails countCreate countModify
  constructor <;>
    simp [List.countP_cons, List.countP_map, isCreateCall, isModifyCall,
      List.countP_eq_zero, Function.comp]

/-- C5: whenever the resolved dry-run flag is set, a run performs zero
`createLabel` and zero `modifyMessage` wire calls, whatever was fetched and
whatever labels the classifier suggested. -/
theorem c5_dry_run_no_mutation (dec h2t : String → String)
    (lookback : Int → YMDDate) (payloadOf : String → Option MimePart)
    (sumInvoke : String → Except Unit Summary) (clsInvoke : Prompt → String)
    (cfg : ConfigModel) (authOk : Bool) (mbx : Mailbox) (args : RunArgs)
    (h : args.dryRun.getD cfg.dryRun = true) :
    countCreate (runPipeline dec h2t lookback payloadOf sumInvoke clsInvoke
      cfg authOk mbx args).2.2 = 0 ∧
    countModify (runPipeline dec h2t lookback payloadOf sumInvoke clsInvoke
      cfg authOk mbx args).2.2 = 0 := by
  unfold runPipeline
  cases hv : validateDateArguments args.dateFrom args.dateTo args.daysOld cfg.daysOld with
  | error e => constructor <;> rfl
  | ok sel =>
    cases hauth : authOk with
    | false => constructor <;> rfl
    | true =>
      simp only [Bool.not_true, Bool.false_eq_true, if_false]
      split
      · constructor <;> rfl
      · rename_i q hq
        split
        · rename_i hlen
          exact fetch_trace_no_mutation dec h2t payloadOf mbx
            (args.useFullContent.getD cfg.useFullContent) q
        · rename_i hlen
          have hf := fetch_trace_no_mutation dec h2t payloadOf mbx
            (args.useFullContent.getD cfg.useFullContent) q
          unfold countCreate countModify at hf ⊢
          constructor <;>
            simp [List.countP_append, hf.1, hf.2, isCreateCall, isModifyCall]

/-- Mailbox used by the C5 witness: one label and one message, with a
classifier that always proposes `Work`, under a dry run. -/
def mbxC5 : Mailbox :=
  { labels := [{ id := some "L1", name := "old", ltype := "user" }]
    messages := [{ id := "m1", sender := "a@b", subject := "s1", date := "d",
                   snippet := "sn1", labelIds := [] }]
    nextLabelId := 0 }

theorem c5_witness :
    (some true : Option Bool).getD false = true ∧
    countCreate (runPipeline id id (fun _ => ⟨2024, 1, 1⟩)
      (fun _ => some (.mk "text/plain" (some "hello") false []))
      (fun _ => .error ()) (fun _ => "Work")
      { daysOld := 7, dryRun := false, useFullContent := false, emailLabels := [] }
      true mbxC5
      { dateFrom := none, dateTo := none, daysOld := some 3,
        useFullContent := none, dryRun := some true }).2.2 = 0 ∧
    countModify (runPipeline id id (fun _ => ⟨2024, 1, 1⟩)
      (fun _ => some (.mk "text/plain" (some "hello") false []))
      (fun _ => .error ()) (fun _ => "Work")
      { daysOld := 7, dryRun := false, useFullContent := false, emailLabels := [] }
      true mbxC5
      { dateFrom := none, dateTo := none, daysOld := some 3,
        useFullContent := none, dryRun := some true }).2.2 = 0 := by
  have h := c5_dry_run_no_mutation id id (fun _ => ⟨2024, 1, 1⟩)
    (fun _ => some (.mk "text/plain" (some "hello") false []))
    (fun _ => .error ()) (fun _ => "Work")
    { daysOld := 7, dryRun := false, useFullContent := false, emailLabels := [] }
    true mbxC5
    { dateFrom := none, dateTo := none, daysOld := some 3,
      useFullContent := none, dryRun := some true }
    (by decide)
  exact ⟨by decide, h.1, h.2⟩

/-! ## Claim C9: error-propagation policy -/

theorem applyAll_outcomes_length (cfg : List String) (st : Mailbox)
    (pairs : List (EmailRec × (String × String))) :
    ((applyAll cfg st pairs).2.1).length = pairs.length := by
  induction pairs generalizing st with
  | nil => rfl
  | cons p rest ih =>
    obtain ⟨e, subj, label⟩ := p
    unfold applyAll
    by_cases hl : (label ≠ "" && label ≠ "NONE") = true
    · simp only [hl, if_true, List.length_cons]
      rw [ih]
    · simp only [hl, Bool.false_eq_true, if_false, List.length_cons]
      rw [ih]

/-- A single failing model invocation aborts `classify_emails` for the whole
batch: with every earlier record succeeding and record `e` failing, the stage
raises (returns `error`), so no record after `e` is processed. -/
theorem classifyGoF_aborts (invoke : Prompt → Except Unit String)
    (labelNames : List String) (es1 : List EmailRec) (e : EmailRec)
    (es2 : List EmailRec)
    (h1 : ∀ x ∈ es1, ∃ r, invoke (mkPrompt labelNames x) = .ok r)
    (h2 : invoke (mkPrompt labelNames e) = .error ()) :
    classifyGoF invoke labelNames (es1 ++ e :: es2) = .error () := by
  induction es1 with
  | nil =>
    unfold classifyGoF
    rw [List.nil_append] at *
    simp only []
    rw [h2]
  | cons x rest ih =>
    obtain ⟨r, hr⟩ := h1 x (List.mem_cons_self x rest)
    have ih' := ih (fun y hy => h1 y (List.mem_cons_of_mem x hy))
    rw [List.cons_append]
    unfold classifyGoF
    rw [hr, ih']

/-- C9 (counterexample): the claim says every per-email error is caught at
its own stage so the remaining emails are still processed; in
`classify_emails` the model invocation has no per-email handler, so with
three records where the second one's invocation fails, the stage errors out
and the third record is never classified. -/
theorem c9_counterexample :
    classifyEmailsF
      (fun p =>
        match p with
        | .withLabels _ _ subj _ => if subj = "b" then .error () else .ok "Work"
        | .withoutLabels _ subj _ => if subj = "b" then .error () else .ok "Work")
      [{ id := "1", sender := "s", subject := "a", date := "", content := "",
         snippet := "", summary := none },
       { id := "2", sender := "s", subject := "b", date := "", content := "",
         snippet := "", summary := none },
       { id := "3", sender := "s", subject := "c", date := "", content := "",
         snippet := "", summary := none }] [] = .error () := rfl

theorem fetchRecords_append (dec h2t : String → String)
    (payloadOf : String → Option MimePart) (full : Bool)
    (a b : List MailMsg) :
    fetchRecords dec h2t payloadOf full (a ++ b) =
      fetchRecords dec h2t payloadOf full a ++
        fetchRecords dec h2t payloadOf full b := by
  induction a with
  | nil => rfl
  | cons m rest ih =>
    rw [List.cons_append]
    unfold fetchRecords
    cases payloadOf m.id with
    | some pl =>
      simp only [ih, List.cons_append]
      cases b <;> rfl
    | none =>
      simp only [ih]
      cases b <;> rfl

/-- A message whose detail fetch fails is dropped from the batch and every
other message is still processed. -/
theorem fetchRecords_skip (dec h2t : String → String)
    (payloadOf : String → Option MimePart) (full : Bool)
    (mf : MailMsg) (ms1 ms2 : List MailMsg) (h : payloadOf mf.id = none) :
    fetchRecords dec h2t payloadOf full (ms1 ++ mf :: ms2) =
      fetchRecords dec h2t payloadOf full ms1 ++
        fetchRecords dec h2t payloadOf full ms2 := by
  rw [fetchRecords_append]
  congr 1
  unfold fetchRecords
  rw [h]
  cases ms2 <;> rfl

/-- C9 (amended): configuration and authentication errors escape as fatal
before any mailbox call; fetch, summarization and label-application errors
are isolated per email (a message whose detail fetch fails is skipped, every
remaining message still yields a record, and `getMessage` is still attempted
for every listed message) — but a classification-stage model failure is not
caught inside the stage: it aborts classification for the whole batch (the
orchestrator's top-level handler merely keeps it from escaping the run). -/
theorem c9_error_isolation (sumInvoke : String → Except Unit Summary)
    (emails : List EmailRec) (cfg : List String) (st : Mailbox)
    (pairs : List (EmailRec × (String × String)))
    (clsInvoke : Prompt → Except Unit String) (labelNames : List String)
    (es1 : List EmailRec) (e : EmailRec) (es2 : List EmailRec)
    (dec h2t : String → String) (lookback : Int → YMDDate)
    (payloadOf : String → Option MimePart) (clsInvokeT : Prompt → String)
    (cfgM : ConfigModel) (authOk : Bool) (mbx : Mailbox) (args : RunArgs)
    (full : Bool) (mf : MailMsg) (ms1 ms2 : List MailMsg) (q : String)
    (h1 : ∀ x ∈ es1, ∃ r, clsInvoke (mkPrompt labelNames x) = .ok r)
    (h2 : clsInvoke (mkPrompt labelNames e) = .error ()) :
    (payloadOf mf.id = none →
      fetchRecords dec h2t payloadOf full (ms1 ++ mf :: ms2) =
        fetchRecords dec h2t payloadOf full ms1 ++
          fetchRecords dec h2t payloadOf full ms2) ∧
    (fetchEmails dec h2t payloadOf
        { labels := mbx.labels, messages := ms1 ++ mf :: ms2,
          nextLabelId := mbx.nextLabelId } full q).2 =
      .listMessages q :: (ms1 ++ mf :: ms2).map (fun m => .getMessage m.id) ∧
    (summarizeEmails sumInvoke emails).length = emails.length ∧
    (∀ r ∈ summarizeEmails sumInvoke emails, r.summary.isSome) ∧
    ((applyAll cfg st pairs).2.1).length = pairs.length ∧
    classifyGoF clsInvoke labelNames (es1 ++ e :: es2) = .error () ∧
    (∀ er, validateDateArguments args.dateFrom args.dateTo args.daysOld
        cfgM.daysOld = .error er →
      runPipeline dec h2t lookback payloadOf sumInvoke clsInvokeT cfgM authOk mbx args =
        (.configError er, mbx, [])) ∧
    (∀ sel, validateDateArguments args.dateFrom args.dateTo args.daysOld
        cfgM.daysOld = .ok sel →
      runPipeline dec h2t lookback payloadOf sumInvoke clsInvokeT cfgM false mbx args =
        (.authError, mbx, [])) := by
  refine ⟨fetchRecords_skip dec h2t payloadOf full mf ms1 ms2, rfl,
    summarizeEmails_length _ _, summarizeEmails_summary_isSome _ _,
    applyAll_outcomes_length _ _ _,
    classifyGoF_aborts clsInvoke labelNames es1 e es2 h1 h2, ?_, ?_⟩
  · intro er hv
    unfold runPipeline
    rw [hv]
  · intro sel hv
    unfold runPipeline
    rw [hv]
    rfl

theorem c9_witness :
    (fun i : String => if i = "m2" then (none : Option MimePart)
        else some (.mk "text/plain" none false [])) "m2" = none ∧
    fetchRecords id id
        (fun i : String => if i = "m2" then (none : Option MimePart)
          else some (.mk "text/plain" none false [])) false
        ([{ id := "m1", sender := "a", subject := "s1", date := "d",
            snippet := "n1", labelIds := [] }] ++
          { id := "m2", sender := "a", subject := "s2", date := "d",
            snippet := "n2", labelIds := [] } ::
          [{ id := "m3", sender := "a", subject := "s3", date := "d",
             snippet := "n3", labelIds := [] }]) =
      fetchRecords id id
        (fun i : String => if i = "m2" then (none : Option MimePart)
          else some (.mk "text/plain" none false [])) false
        [{ id := "m1", sender := "a", subject := "s1", date := "d",
           snippet := "n1", labelIds := [] }] ++
      fetchRecords id id
        (fun i : String => if i = "m2" then (none : Option MimePart)
          else some (.mk "text/plain" none false [])) false
        [{ id := "m3", sender := "a", subject := "s3", date := "d",
           snippet := "n3", labelIds := [] }] ∧
    (fetchRecords id id
        (fun i : String => if i = "m2" then (none : Option MimePart)
          else some (.mk "text/plain" none false [])) false
        ([{ id := "m1", sender := "a", subject := "s1", date := "d",
            snippet := "n1", labelIds := [] }] ++
          { id := "m2", sender := "a", subject := "s2", date := "d",
            snippet := "n2", labelIds := [] } ::
          [{ id := "m3", sender := "a", subject := "s3", date := "d",
             snippet := "n3", labelIds := [] }])).length = 2 ∧
    (∀ x ∈ ([] : List EmailRec), ∃ r,
      (fun _ : Prompt => (Except.error () : Except Unit String))
        (mkPrompt [] x) = .ok r) ∧
    (fun _ : Prompt => (Except.error () : Except Unit String))
        (mkPrompt []
          { id := "1", sender := "s", subject := "a", date := "", content := "",
            snippet := "", summary := none }) = .error () ∧
    classifyGoF (fun _ => .error ()) []
      ([] ++ { id := "1", sender := "s", subject := "a", date := "",
               content := "", snippet := "", summary := none } :: []) =
      .error () ∧
    runPipeline id id (fun _ => ⟨2024, 1, 1⟩)
        (fun i : String => if i = "m2" then (none : Option MimePart)
          else some (.mk "text/plain" none false []))
        (fun _ => .error ()) (fun _ => "Work")
        { daysOld := 7, dryRun := false, useFullContent := false,
          emailLabels := [] }
        false mbxC2
        { dateFrom := none, dateTo := none, daysOld := some 3,
          useFullContent := none, dryRun := none } =
      (.authError, mbxC2, []) := by
  have h := c9_error_isolation (fun _ => .error ()) [] [] mbxC2 []
    (fun _ => .error ()) [] []
    { id := "1", sender := "s", subject := "a", date := "", content := "",
      snippet := "", summary := none }
    [] id id (fun _ => ⟨2024, 1, 1⟩)
    (fun i : String => if i = "m2" then (none : Option MimePart)
      else some (.mk "text/plain" none false []))
    (fun _ => "Work")
    { daysOld := 7, dryRun := false, useFullContent := false, emailLabels := [] }
    true mbxC2
    { dateFrom := none, dateTo := none, daysOld := some 3,
      useFullContent := none, dryRun := none }
    false
    { id := "m2", sender := "a", subject := "s2", date := "d",
      snippet := "n2", labelIds := [] }
    [{ id := "m1", sender := "a", subject := "s1", date := "d",
       snippet := "n1", labelIds := [] }]
    [{ id := "m3", sender := "a", subject := "s3", date := "d",
       snippet := "n3", labelIds := [] }]
    "is:unread"
    (by intro x hx; exact absurd hx (List.not_mem_nil x)) rfl
  exact ⟨rfl, h.1 rfl, rfl,
    fun x hx => absurd hx (List.not_mem_nil x), rfl,
    h.2.2.2.2.2.1,
    h.2.2.2.2.2.2.2 (.lookbackDays 3) rfl⟩

/-! ## Claim C6: full-content normalization -/

/-- `_find_part_by_mimetype` finds exactly the first part, in depth-first
preorder, whose media type matches. -/
theorem findPart_eq_allParts_find? (m : String) (p : MimePart) :
    findPartByMimetype m p =
      (allParts p).find? (fun q => decide (q.mimeTypeOf = m)) := by
  refine findPartByMimetype.induct m
    (fun p => findPartByMimetype m p =
      (allParts p).find? (fun q => decide (q.mimeTypeOf = m)))
    (fun ps => findPartInList m ps =
      (allPartsList ps).find? (fun q => decide (q.mimeTypeOf = m)))
    ?_ ?_ ?_ ?_ ?_ ?_ p
  · intro b k ps
    simp [findPartByMimetype, allParts, List.find?, MimePart.mimeTypeOf]
  · intro mt b ps hmt ih
    rw [allParts]
    simp only [if_true]
    rw [findPartByMimetype]
    simp [hmt, List.find?, MimePart.mimeTypeOf, ih]
  · intro mt b k ps hmt hk
    have hk' : k = false := by
      cases k
      · rfl
      · exact absurd rfl hk
    subst hk'
    rw [allParts, findPartByMimetype]
    simp [hmt, List.find?, MimePart.mimeTypeOf]
  · rfl
  · intro p' ps q hfound ih
    rw [findPartInList, allPartsList, List.find?_append, hfound]
    rw [hfound] at ih
    rw [← ih]
    rfl
  · intro p' ps hnone ih ihs
    rw [findPartInList, allPartsList, List.find?_append, hnone]
    rw [hnone] at ih
    rw [← ih, ihs]
    rfl

mutual

/-- Modelled from the claim's words, for comparison with the code: the
decoded texts of all leaf parts (parts without sub-parts) whose media type is
plain text, in traversal order. -/
def claimPlainLeafTexts (dec : String → String) : MimePart → List String
  | .mk mt b _ [] => if mt = "text/plain" then [decodeBody dec b] else []
  | .mk _ _ _ (p :: ps) => claimPlainLeafTextsList dec (p :: ps)

def claimPlainLeafTextsList (dec : String → String) : List MimePart → List String
  | [] => []
  | p :: ps => claimPlainLeafTexts dec p ++ claimPlainLeafTextsList dec ps

end

/-- Modelled from the claim's words: in `FullContent` mode the content should
be all plain-text leaves joined with a space; when none exist, the
HTML-to-text conversion of the first HTML part; when neither exists, the
snippet. -/
def claimFullContent (dec h2t : String → String) (p : MimePart)
    (snippet : String) : String :=
  let plains := claimPlainLeafTexts dec p
  if plains ≠ [] then joinSpace plains
  else
    match (allParts p).find? (fun q => decide (q.mimeTypeOf = "text/html")) with
    | some ph => h2t (decodeBody dec ph.bodyOf)
    | none => snippet

/-- A payload with two plain-text leaves, decoding to `A` and `B`. -/
def payloadC6 : MimePart :=
  .mk "multipart/mixed" none true
    [.mk "text/plain" (some "A") false [], .mk "text/plain" (some "B") false []]

/-- C6 (counterexample): on a payload with two plain-text leaves the claim
prescribes the space-joined concatenation `A B`, but
`GmailClient.get_message_content` decodes only the first plain-text part
found, producing `A`. -/
theorem c6_counterexample :
    fullBodyContent id id payloadC6 "snip" = "A" ∧
    claimFullContent id id payloadC6 "snip" = "A B" ∧
    ("A" : String) ≠ "A B" := by
  refine ⟨?_, ?_, by decide⟩
  · simp [fullBodyContent, payloadC6, findPartByMimetype, findPartInList,
      decodeBody, MimePart.bodyOf]
  · simp [claimFullContent, payloadC6, claimPlainLeafTexts,
      claimPlainLeafTextsList, decodeBody, joinSpace, String.intercalate]
    rfl

/-- C6 (amended): in `FullContent` mode the produced content is the decoded
body of the *first* part (leaf or not, the root included) with media type
`text/plain` in depth-first preorder; when no such part exists anywhere in
the tree, the HTML-to-text conversion of the first `text/html` part in
preorder; when neither exists, the root's own body data when present, else
the snippet. -/
theorem c6_full_content (dec h2t : String → String) (payload : MimePart)
    (snippet : String) :
    (∀ pt, (allParts payload).find?
        (fun q => decide (q.mimeTypeOf = "text/plain")) = some pt →
      fullBodyContent dec h2t payload snippet = decodeBody dec pt.bodyOf) ∧
    ((allParts payload).find?
        (fun q => decide (q.mimeTypeOf = "text/plain")) = none →
      (∀ ph, (allParts payload).find?
          (fun q => decide (q.mimeTypeOf = "text/html")) = some ph →
        fullBodyContent dec h2t payload snippet = h2t (decodeBody dec ph.bodyOf)) ∧
      ((allParts payload).find?
          (fun q => decide (q.mimeTypeOf = "text/html")) = none →
        fullBodyContent dec h2t payload snippet =
          match payload.bodyOf with
          | some _ => decodeBody dec payload.bodyOf
          | none => snippet)) ∧
    ((allParts payload).find?
        (fun q => decide (q.mimeTypeOf = "text/plain")) = none ↔
      ∀ q ∈ allParts payload, ¬(q.mimeTypeOf = "text/plain")) := by
  refine ⟨?_, ?_, ?_⟩
  · intro pt hpt
    unfold fullBodyContent
    rw [findPart_eq_allParts_find?, hpt]
  · intro hnone
    constructor
    · intro ph hph
      unfold fullBodyContent
      rw [findPart_eq_allParts_find?, hnone, findPart_eq_allParts_find?, hph]
    · intro hnone2
      unfold fullBodyContent
      rw [findPart_eq_allParts_find?, hnone, findPart_eq_allParts_find?, hnone2]
  · rw [List.find?_eq_none]
    constructor
    · intro h q hq
      have hh := h q hq
      simpa using hh
    · intro h q hq
      simpa using h q hq

theorem c6_witness :
    (allParts payloadC6).find?
        (fun q => decide (q.mimeTypeOf = "text/plain")) =
      some (.mk "text/plain" (some "A") false []) ∧
    fullBodyContent id id payloadC6 "snip" =
      decodeBody id (MimePart.mk "text/plain" (some "A") false []).bodyOf := by
  have hfind : (allParts payloadC6).find?
      (fun q => decide (q.mimeTypeOf = "text/plain")) =
      some (.mk "text/plain" (some "A") false []) := by
    simp [payloadC6, allParts, allPartsList, List.find?, MimePart.mimeTypeOf]
  exact ⟨hfind,
    (c6_full_content id id payloadC6 "snip").1
      (.mk "text/plain" (some "A") false []) hfind⟩

/-! ## Claim C7: mailbox filter-query grammar -/

theorem string_data_append (a b : String) : (a ++ b).data = a.data ++ b.data := rfl

theorem slash_mem_formatSlashDate (dt : YMDDate) :
    '/' ∈ (formatSlashDate dt).data := by
  unfold formatSlashDate
  simp only [string_data_append, List.mem_append]
  simp

/-- C7 (counterexample): the claim requires every date in the query to be
formatted `YYYY/MM/DD`.  With the resolved range selection
(`2024-01-01`, `2024-02-01`) — the format the CLI supplies — the query
interpolates the caller's strings verbatim: it contains no `/` at all, while
every `YYYY/MM/DD`-formatted date contains `/`. -/
theorem c7_counterexample :
    fetchFilterQuery (fun _ => ⟨2024, 1, 1⟩)
      { dateFrom := some "2024-01-01", dateTo := some "2024-02-01",
        daysOld := none } =
      .ok "is:unread after:2024-01-01 before:2024-02-01" ∧
    '/' ∉ ("is:unread after:2024-01-01 before:2024-02-01" : String).data ∧
    (∀ dt : YMDDate, '/' ∈ (formatSlashDate dt).data) := by
  refine ⟨rfl, by decide, slash_mem_formatSlashDate⟩

/-- C7 (amended): the query is `is:unread` followed by
`after:<from> before:<to>` in range mode, with the caller's resolved date
strings interpolated verbatim (per the CLI contract these are `YYYY-MM-DD`),
or `after:<date>` in lookback mode, where only this computed date is
formatted `YYYY/MM/DD` (by `strftime('%Y/%m/%d')`). -/
theorem c7_filter_query (lookback : Int → YMDDate) (f t : String) (n : Int)
    (hf : f ≠ "") (ht : t ≠ "") :
    fetchFilterQuery lookback
        { dateFrom := some f, dateTo := some t, daysOld := none } =
      .ok ("is:unread" ++ " after:" ++ f ++ " before:" ++ t) ∧
    fetchFilterQuery lookback
        { dateFrom := none, dateTo := none, daysOld := some n } =
      .ok ("is:unread" ++ " after:" ++ formatSlashDate (lookback n)) ∧
    '/' ∈ (formatSlashDate (lookback n)).data := by
  refine ⟨?_, rfl, slash_mem_formatSlashDate (lookback n)⟩
  unfold fetchFilterQuery
  have hc : (optTruthy (some f) && optTruthy (some t)) = true := by
    simp [optTruthy, hf, ht]
  rw [if_pos hc]
  rfl

theorem c7_witness :
    ("2024-01-01" : String) ≠ "" ∧
    fetchFilterQuery (fun _ => ⟨2024, 3, 5⟩)
        { dateFrom := some "2024-01-01", dateTo := some "2024-02-01",
          daysOld := none } =
      .ok ("is:unread" ++ " after:" ++ "2024-01-01" ++ " before:" ++ "2024-02-01") ∧
    fetchFilterQuery (fun _ => ⟨2024, 3, 5⟩)
        { dateFrom := none, dateTo := none, daysOld := some 7 } =
      .ok ("is:unread" ++ " after:" ++ formatSlashDate ⟨2024, 3, 5⟩) ∧
    formatSlashDate ⟨2024, 3, 5⟩ = "2024/03/05" := by
  have h := c7_filter_query (fun _ => ⟨2024, 3, 5⟩) "2024-01-01" "2024-02-01" 7
    (by decide) (by decide)
  exact ⟨by decide, h.1, h.2.1, by decide⟩

/-! ## Claim C10: the 30-day clamp in `get_unread_emails` is dead -/

/-- C10: when both a start and an end date are supplied,
`EmailProcessor.get_unread_emails` always interpolates the caller's original
end date: the clamped end date computed in the 30-days-or-more branch never
reaches the query, both branches of the comparison build the same string, and
the cap has no effect.  (Note the query's literal `before: ` with a space, as
in the source.) -/
theorem c10_clamp_dead (parse : String → Int) (lookback : Int → YMDDate)
    (s e : String) (dOld : Option Int) (hs : s ≠ "") (he : e ≠ "") :
    getUnreadEmailsQuery parse lookback (some s) (some e) dOld =
      "is:unread" ++ " after:" ++ s ++ " before: " ++ e := by
  unfold getUnreadEmailsQuery
  have hc : (optTruthy (some s) && optTruthy (some e)) = true := by
    simp [optTruthy, hs, he]
  rw [if_pos hc]
  show (if parse e - parse s < 30 then
      "is:unread" ++ " after:" ++ s ++ " before: " ++ e
    else "is:unread" ++ " after:" ++ s ++ " before: " ++ e) =
    "is:unread" ++ " after:" ++ s ++ " before: " ++ e
  split <;> rfl

theorem c10_witness :
    ("2024-01-01" : String) ≠ "" ∧
    getUnreadEmailsQuery
        (fun d => if d = "2024-01-01" then 0 else 100)
        (fun _ => ⟨2024, 1, 1⟩)
        (some "2024-01-01") (some "2024-04-10") none =
      "is:unread" ++ " after:" ++ "2024-01-01" ++ " before: " ++ "2024-04-10" :=
  ⟨by decide,
    c10_clamp_dead (fun d => if d = "2024-01-01" then 0 else 100)
      (fun _ => ⟨2024, 1, 1⟩) "2024-01-01" "2024-04-10" none
      (by decide) (by decide)⟩

end Mailsense
